import Mathlib

/-
Verification of the frame-step video player core against its source.

The embedding covers:
  * src/main/ffmpeg-service.js   — getMetadata, extractFrame
  * src/renderer/js/frame-cache.js — FrameCache (get/set/has/clear/prefetch
    and the prefetch completion handlers)
  * src/renderer/js/video-controller.js — stepFrame, seekToProgress,
    togglePlayPause, play, pause, getState

JavaScript numbers are modelled as `Option ℚ`: `some q` is an ordinary
(finite) number, `none` is NaN.  Machine floating point is replaced by exact
rationals; every claim settled here is driven by integer/rational structure
of the code, not by rounding of binary floats.
-/

namespace FrameStep

/-- A JavaScript number: `none` models NaN, `some q` a finite value. -/
abbrev JSNum := Option ℚ

/-- JavaScript truthiness of a number: NaN and 0 are falsy. -/
def truthy : JSNum → Bool
  | none => false
  | some q => decide (q ≠ 0)

/-- `Math.round` on a finite value: round half toward positive infinity. -/
def jsRound (q : ℚ) : ℤ := ⌊q + 1/2⌋

/-- `Math.round(q * 1000) / 1000` — rounding a rate to 3 decimals
(ffmpeg-service.js line 77). -/
def round3 (q : ℚ) : ℚ := (jsRound (q * 1000) : ℚ) / 1000

/-! ## Metadata prober (ffmpeg-service.js, `getMetadata`) -/

/-- The result of `s.split('/').map(Number)` on a rate string:
`num` is `Number` of the part before the slash (`none` = NaN), `den` is
absent when the string has no slash, else `Number` of the part after it. -/
structure RateStr where
  num : JSNum
  den : Option JSNum
deriving DecidableEq

/-- The fields of the probed video stream that `getMetadata` reads.
A rate field is `none` when the corresponding string property is absent or
empty (falsy in the `if (videoStream.r_frame_rate)` test); `duration` is
the `parseFloat` of the stream duration (`none` = NaN, also when absent). -/
structure ProbeStream where
  r_frame_rate : Option RateStr
  avg_frame_rate : Option RateStr
  duration : JSNum
deriving DecidableEq

/-- The container-level fields `getMetadata` reads (`format.duration`). -/
structure ProbeFormat where
  duration : JSNum
deriving DecidableEq

/-- `frameRate = den ? num / den : num` (ffmpeg-service.js lines 59-63):
when the denominator is truthy (present, not NaN, nonzero) divide,
otherwise take the numerator directly. -/
def rateOf (r : RateStr) : JSNum :=
  match r.den with
  | some (some d) => if d ≠ 0 then r.num.map (· / d) else r.num
  | _ => r.num

/-- Frame-rate resolution (ffmpeg-service.js lines 57-64): prefer
`r_frame_rate`, else `avg_frame_rate`, else the default 30. -/
def resolveRate (s : ProbeStream) : JSNum :=
  match s.r_frame_rate with
  | some r => rateOf r
  | none =>
    match s.avg_frame_rate with
    | some r => rateOf r
    | none => some 30

/-- JavaScript `a || b` on numbers: `b` when `a` is falsy. -/
def jsOr (a b : JSNum) : JSNum := if truthy a then a else b

/-- `parseFloat(videoStream.duration) || parseFloat(metadata.format.duration) || 0`
(ffmpeg-service.js lines 67-68).  The result is never NaN, so it is
returned as a plain rational. -/
def resolveDuration (sd fd : JSNum) : ℚ :=
  (jsOr (jsOr sd fd) (some 0)).getD 0

/-- The fields of the metadata descriptor that the claims mention
(ffmpeg-service.js lines 76-86); width, height, codec, bit rate, format
name and the VFR flag are carried through unchanged and are omitted. -/
structure VideoMetadata where
  frameRate : JSNum
  duration : ℚ
  totalFrames : Option ℤ
deriving DecidableEq

/-- `getMetadata` (ffmpeg-service.js lines 56-86) on a stream/format pair
that already passed the video-stream check:
`frameRate` is the resolved rate rounded to 3 decimals,
`duration` the resolved duration, and
`totalFrames = Math.floor(frameRate * duration)` computed from the
UNROUNDED resolved rate (line 71 runs before the rounding on line 77).
`Math.floor`/multiplication propagate NaN, hence the `Option.map`. -/
def getMetadata (s : ProbeStream) (f : ProbeFormat) : VideoMetadata :=
  let frameRate := resolveRate s
  let duration := resolveDuration s.duration f.duration
  { frameRate := frameRate.map round3
    duration := duration
    totalFrames := frameRate.map (fun r => ⌊r * duration⌋) }

/-! ## Frame extractor (ffmpeg-service.js, `extractFrame`) -/

/-- The frame object resolved by `extractFrame` (ffmpeg-service.js lines
143-148).  `data` models the concatenated stdout bytes (the base64
transport encoding is a bijection and is not modelled); the constant
`format: 'jpeg'` tag is omitted. -/
structure ExtractedFrame where
  frameNumber : ℤ
  timestamp : ℚ
  data : List ℕ
deriving DecidableEq

/-- What the spawned process does before the promise would otherwise time
out: close with an exit code and the list of stdout chunks collected, or
fail to spawn (the `error` event). -/
inductive ProcEv where
  | close (code : ℤ) (chunks : List (List ℕ))
  | procError
deriving DecidableEq

/-- How one `extractFrame` call settles. -/
inductive ExtractOutcome where
  | resolved (f : ExtractedFrame)
  | failed
  | timedOut
deriving DecidableEq

/-- `extractFrame(filePath, frameNumber, frameRate)` settlement logic
(ffmpeg-service.js lines 99-168).  The input is the first process event
together with the time (seconds) at which it fires: if it fires before the
10-second timer, `close` with exit code 0 and at least one stdout chunk
resolves with the frame (timestamp = frameNumber / frameRate, line 100),
any other close or a spawn error rejects; if no event fires before the
timer (or none ever fires) the process is killed and the call rejects
with the timeout error. -/
def extractFrame (frameNumber : ℤ) (frameRate : ℚ) (ev : Option (ℚ × ProcEv)) :
    ExtractOutcome :=
  match ev with
  | some (t, e) =>
    if t < 10 then
      match e with
      | .close code chunks =>
        if code = 0 ∧ chunks ≠ [] then
          .resolved ⟨frameNumber, frameNumber / frameRate, chunks.flatten⟩
        else .failed
      | .procError => .failed
    else .timedOut
  | none => .timedOut

/-! ## Frame cache (frame-cache.js, `FrameCache`)

The JS `Map` is modelled as an association list in insertion order
(first entry = oldest); `Map.set` on an existing key updates the value in
place (keeping its position), on a new key it appends; `Map.delete`
removes the key; `keys().next().value` is the first key.  The
`pendingRequests` map only matters through its key set, modelled as a
list of keys. -/

/-- `Map.set k v`: update in place when present, append when new. -/
def mapSet {α : Type} (m : List (ℤ × α)) (k : ℤ) (v : α) : List (ℤ × α) :=
  if m.any (fun e => e.1 = k) then
    m.map (fun e => if e.1 = k then (k, v) else e)
  else m ++ [(k, v)]

/-- The cache state: capacity, the recency-ordered frame map
(`this.cache`, oldest first) and the in-flight key set
(`this.pendingRequests`). -/
structure FrameCache (α : Type) where
  maxSize : ℕ
  cache : List (ℤ × α)
  pending : List ℤ
deriving DecidableEq

namespace FrameCache

/-- The `new FrameCache(maxSize)` constructor (frame-cache.js lines 6-10). -/
def empty (α : Type) (maxSize : ℕ) : FrameCache α :=
  { maxSize := maxSize, cache := [], pending := [] }

/-- `has(frameNumber)` (frame-cache.js lines 50-52). -/
def has {α : Type} (c : FrameCache α) (k : ℤ) : Bool :=
  c.cache.any (fun e => e.1 = k)

/-- Number of cached entries (`this.cache.size`). -/
def size {α : Type} (c : FrameCache α) : ℕ := c.cache.length

/-- `get(frameNumber)` (frame-cache.js lines 17-28): on a hit, delete the
key and re-insert it at the end (most recently used), returning the value;
on a miss return null.  The returned pair is (result, updated cache). -/
def get {α : Type} (c : FrameCache α) (k : ℤ) : Option α × FrameCache α :=
  match (c.cache.find? (fun e => e.1 = k)) with
  | none => (none, c)
  | some e =>
    (some e.2,
      { c with cache := (c.cache.filter (fun e => ¬ e.1 = k)) ++ [(k, e.2)] })

/-- `set(frameNumber, frameData)` (frame-cache.js lines 35-43): when
`size >= maxSize`, delete the first (oldest) key, then `Map.set` the new
entry.  Note the eviction happens whether or not `frameNumber` is already
a key, and `Map.set` of a still-present key keeps its position. -/
def set {α : Type} (c : FrameCache α) (k : ℤ) (v : α) : FrameCache α :=
  let cache1 := if c.maxSize ≤ c.cache.length then c.cache.tail else c.cache
  { c with cache := mapSet cache1 k v }

/-- `clear()` (frame-cache.js lines 57-60). -/
def clear {α : Type} (c : FrameCache α) : FrameCache α :=
  { c with cache := [], pending := [] }

/-- The list of frame indices `prefetch(currentFrame, totalFrames, ...,
radius)` collects into `framesToFetch` and then invokes `extractFn` on, in
order (frame-cache.js lines 82-95): for `i = 1..radius`, `currentFrame+i`
when it is `< totalFrames`, uncached and not pending, then
`currentFrame-i` when it is `>= 0`, uncached and not pending. -/
def prefetchPlan {α : Type} (c : FrameCache α) (cur total : ℤ) (radius : ℕ) :
    List ℤ :=
  (List.range' 1 radius).flatMap (fun i =>
    (if cur + i < total ∧ ¬ c.has (cur + i) ∧ (cur + i) ∉ c.pending
      then [cur + (i : ℤ)] else []) ++
    (if 0 ≤ cur - i ∧ ¬ c.has (cur - i) ∧ (cur - i) ∉ c.pending
      then [cur - (i : ℤ)] else []))

/-- The cache state after the synchronous part of `prefetch` has run
(frame-cache.js lines 98-110): every planned index gains an entry in
`pendingRequests` (its completion handlers run later, see
`onPrefetchSuccess` / `onPrefetchFailure`). -/
def prefetchStep {α : Type} (c : FrameCache α) (cur total : ℤ) (radius : ℕ) :
    FrameCache α :=
  { c with pending := c.pending ++ prefetchPlan c cur total radius }

/-- The `.then` handler of a prefetch extraction (frame-cache.js lines
100-103): store the frame with `set`, then delete the pending key.  It
runs on whatever cache state holds when the extraction completes. -/
def onPrefetchSuccess {α : Type} (c : FrameCache α) (k : ℤ) (v : α) :
    FrameCache α :=
  let c1 := c.set k v
  { c1 with pending := c1.pending.filter (fun j => ¬ j = k) }

/-- The `.catch` handler of a prefetch extraction (frame-cache.js lines
104-107): only delete the pending key. -/
def onPrefetchFailure {α : Type} (c : FrameCache α) (k : ℤ) : FrameCache α :=
  { c with pending := c.pending.filter (fun j => ¬ j = k) }

/-- The prefetch schedule as the spec words it (for refinement against
`prefetchPlan`): for `i` in `1..=radius`, `currentIndex+i` before
`currentIndex-i`, each included exactly when it lies in `[0, totalFrames)`,
is not already cached, and is not already in flight. -/
def specPrefetchPlan {α : Type} (c : FrameCache α) (cur total : ℤ)
    (radius : ℕ) : List ℤ :=
  (List.range' 1 radius).flatMap (fun i =>
    (if 0 ≤ cur + i ∧ cur + i < total ∧ ¬ c.has (cur + i) ∧
        (cur + i) ∉ c.pending then [cur + (i : ℤ)] else []) ++
    (if 0 ≤ cur - i ∧ cur - i < total ∧ ¬ c.has (cur - i) ∧
        (cur - i) ∉ c.pending then [cur - (i : ℤ)] else []))

end FrameCache

/-- Well-formedness of a probed rate field: when present, its numerator
parsed to a nonnegative number and any parsed denominator is nonnegative
(real containers report nonnegative rationals). -/
def RateFieldOk (o : Option RateStr) : Prop :=
  ∀ r, o = some r →
    (∃ q, r.num = some q ∧ 0 ≤ q) ∧ (∀ d, r.den = some (some d) → 0 ≤ d)

/-- Well-formedness of a probed duration field: when it parsed at all, the
value is nonnegative. -/
def DurFieldOk (o : JSNum) : Prop := ∀ d, o = some d → 0 ≤ d

/-! ## Navigation coordinator (video-controller.js, `VideoController`)

The controller state is its scalar fields plus the two properties of the
native `<video>` element it drives (`currentTime`, `paused`).  Calling
`videoElement.pause()` / `.play()` fires the `pause` / `play` event whose
listeners (video-controller.js lines 41-50) update `isPlaying` (and on
`play`, call `exitFrameMode`); by the time a navigation call has settled
those listeners have run, so they are applied atomically here.  DOM/UI
updates (canvas drawing, overlay, timeline) have no bearing on the claims
and are not modelled. -/

/-- The metadata fields the controller reads.  A loaded controller always
holds a probed descriptor; the claims quantify over well-formed ones, so
the numeric fields are plain rationals/integers here. -/
structure CtrlMeta where
  frameRate : ℚ
  duration : ℚ
  totalFrames : ℤ
deriving DecidableEq

/-- The controller + video-element state (video-controller.js lines 16-22
plus the element's `currentTime`/`paused`). -/
structure PlayerState where
  metadata : Option CtrlMeta
  currentFrame : ℤ
  isPlaying : Bool
  isFrameMode : Bool
  isStepping : Bool
  videoTime : ℚ
  videoPaused : Bool
deriving DecidableEq

namespace PlayerState

/-- `this.metadata.frameRate` on the paths the claims exercise (metadata
is always present there; the `none` branch would be a TypeError in JS and
is unreachable from the guarded entry points). -/
def frameRateOf (s : PlayerState) : ℚ :=
  (s.metadata.map CtrlMeta.frameRate).getD 0

/-- `videoElement.pause()` together with its `pause` event listener
(video-controller.js lines 47-50). -/
def pauseVideo (s : PlayerState) : PlayerState :=
  { s with videoPaused := true, isPlaying := false }

/-- `exitFrameMode()` (video-controller.js lines 269-279): leave frame
mode and re-sync the element's time to `currentFrame / frameRate`. -/
def exitFrameMode (s : PlayerState) : PlayerState :=
  if s.isFrameMode then
    { s with isFrameMode := false, videoTime := s.currentFrame / s.frameRateOf }
  else s

/-- `videoElement.play()` together with its `play` event listener
(video-controller.js lines 41-45): set `isPlaying` and exit frame mode. -/
def playVideoEl (s : PlayerState) : PlayerState :=
  exitFrameMode { s with videoPaused := false, isPlaying := true }

/-- `seekVideoToTime(time)` (video-controller.js lines 206-222): set the
element's time unless it is already within 0.001 s of the target. -/
def seekVideoToTime (s : PlayerState) (t : ℚ) : PlayerState :=
  if |s.videoTime - t| < 1/1000 then s else { s with videoTime := t }

/-- `enterFrameMode()` (video-controller.js lines 258-264). -/
def enterFrameMode (s : PlayerState) : PlayerState :=
  { s with isFrameMode := true }

/-- `stepFrame(delta)` (video-controller.js lines 153-200), run to
completion: bail out when unloaded or a step is in flight; pause if
playing; clamp the target to `[0, totalFrames-1]`; return early when the
clamped target equals the current frame; otherwise seek the element to
`targetFrame / frameRate`, update `currentFrame` and enter frame mode.
`isStepping` is true only within the call, so it is false again in the
result. -/
def stepFrame (s : PlayerState) (delta : ℤ) : PlayerState :=
  match s.metadata with
  | none => s
  | some m =>
    if s.isStepping then s
    else
      let s1 := if s.isPlaying then pauseVideo s else s
      let targetFrame := max 0 (min (s1.currentFrame + delta) (m.totalFrames - 1))
      if targetFrame = s1.currentFrame then s1
      else
        let targetTime := targetFrame * (1 / m.frameRate)
        let s2 := seekVideoToTime s1 targetTime
        enterFrameMode { s2 with currentFrame := targetFrame }

/-- `togglePlayPause()` (video-controller.js lines 284-293). -/
def togglePlayPause (s : PlayerState) : PlayerState :=
  match s.metadata with
  | none => s
  | some _ => if s.isPlaying then pauseVideo s else playVideoEl (exitFrameMode s)

/-- `play()` (video-controller.js lines 298-302). -/
def play (s : PlayerState) : PlayerState :=
  match s.metadata with
  | none => s
  | some _ => playVideoEl (exitFrameMode s)

/-- `pause()` (video-controller.js lines 307-310). -/
def pause (s : PlayerState) : PlayerState :=
  match s.metadata with
  | none => s
  | some _ => pauseVideo s

/-- `seekToProgress(progress)` (video-controller.js lines 316-330):
compute the target time and frame; when in frame mode or the element is
paused, set `currentFrame := max(0, targetFrame - 1)` and `stepFrame(1)`;
when playing, plain native time-seek. -/
def seekToProgress (s : PlayerState) (progress : ℚ) : PlayerState :=
  match s.metadata with
  | none => s
  | some m =>
    let targetTime := progress * m.duration
    let targetFrame := jsRound (targetTime * m.frameRate)
    if s.isFrameMode || s.videoPaused then
      stepFrame { s with currentFrame := max 0 (targetFrame - 1) } 1
    else
      { s with videoTime := targetTime }

/-- The record returned by `getState()` (video-controller.js lines
400-410). -/
structure StateView where
  isPlaying : Bool
  isPaused : Bool
  isFrameMode : Bool
  currentFrame : ℤ
  totalFrames : ℤ
  currentTime : ℚ
  duration : ℚ
deriving DecidableEq

/-- `getState()` (video-controller.js lines 400-410).  `totalFrames` and
`duration` use `x || 0`, the identity on non-NaN values; `currentTime`
divides by `metadata?.frameRate || 1`, so a falsy (absent or zero) rate
is replaced by 1. -/
def getState (s : PlayerState) : StateView :=
  { isPlaying := s.isPlaying
    isPaused := !s.isPlaying && s.metadata.isSome
    isFrameMode := s.isFrameMode
    currentFrame := s.currentFrame
    totalFrames := match s.metadata with | some m => m.totalFrames | none => 0
    currentTime :=
      s.currentFrame /
        (match s.metadata with
          | some m => if m.frameRate ≠ 0 then m.frameRate else 1
          | none => 1)
    duration := match s.metadata with | some m => m.duration | none => 0 }

end PlayerState

/-! ## Concrete instances used by witnesses and counterexamples -/

/-- A 10-second 10 fps video: 100 frames. -/
def m100 : CtrlMeta := { frameRate := 10, duration := 10, totalFrames := 100 }

/-- A paused 100-frame video showing frame 7 (not in frame mode,
no step in flight). -/
def sPaused : PlayerState :=
  { metadata := some m100, currentFrame := 7, isPlaying := false,
    isFrameMode := false, isStepping := false, videoTime := 7/10,
    videoPaused := true }

/-- A playing 100-frame video at frame 0. -/
def sPlay0 : PlayerState :=
  { metadata := some m100, currentFrame := 0, isPlaying := true,
    isFrameMode := false, isStepping := false, videoTime := 0,
    videoPaused := false }

/-- A paused 100-frame video showing its last frame (index 99). -/
def sPausedEnd : PlayerState :=
  { metadata := some m100, currentFrame := 99, isPlaying := false,
    isFrameMode := true, isStepping := false, videoTime := 99/10,
    videoPaused := true }

/-- The controller before any media is loaded. -/
def sEmpty : PlayerState :=
  { metadata := none, currentFrame := 0, isPlaying := false,
    isFrameMode := false, isStepping := false, videoTime := 0,
    videoPaused := true }

/-- A cache of capacity 2 filled by `put 1` then `put 2`. -/
def cacheFull2 : FrameCache ℕ := ((FrameCache.empty ℕ 2).set 1 10).set 2 20

/-- An empty default cache after `prefetch(4, 100, extractFn, 3)` has
scheduled its six extractions (all still in flight). -/
def cachePending : FrameCache ℕ :=
  FrameCache.prefetchStep (FrameCache.empty ℕ 30) 4 100 3

/-- A probed stream with `r_frame_rate = "1/3"` and a 3-second stream
duration. -/
def streamThird : ProbeStream :=
  { r_frame_rate := some { num := some 1, den := some (some 3) },
    avg_frame_rate := none, duration := some 3 }

/-- A probed stream with `r_frame_rate = "30/1"` and a 10-second stream
duration. -/
def streamThirty : ProbeStream :=
  { r_frame_rate := some { num := some 30, den := some (some 1) },
    avg_frame_rate := none, duration := some 10 }

/-- A probed stream whose `r_frame_rate = "0/1"` parses to rate 0. -/
def streamZeroRate : ProbeStream :=
  { r_frame_rate := some { num := some 0, den := some (some 1) },
    avg_frame_rate := none, duration := some 10 }

/-- A probed stream with both rate fields and the stream duration absent. -/
def streamBare : ProbeStream :=
  { r_frame_rate := none, avg_frame_rate := none, duration := none }

/-- A container-level record with no duration. -/
def formatBare : ProbeFormat := { duration := none }

/-! ## Helper lemmas -/

namespace FrameCache

theorem any_congr {α : Type} (l : List α) (p q : α → Bool)
    (h : ∀ x ∈ l, p x = q x) : l.any p = l.any q := by
  induction l with
  | nil => rfl
  | cons a t ih =>
    simp only [List.any_cons, h a (by simp),
      ih (fun x hx => h x (by simp [hx]))]

/-- `Map.set` preserves the key set except for adding `k`. -/
theorem mapSet_keys {α : Type} (m : List (ℤ × α)) (k : ℤ) (v : α) (j : ℤ) :
    ((mapSet m k v).any (fun e => e.1 = j)) =
      (m.any (fun e => e.1 = j) || decide (j = k)) := by
  unfold mapSet
  split
  case isTrue h =>
    have hmap : (m.map (fun e => if e.1 = k then (k, v) else e)).any
        (fun e => e.1 = j) = m.any (fun e => e.1 = j) := by
      rw [List.any_map]
      exact any_congr m _ _ (fun e _ => by
        by_cases he : e.1 = k <;> simp [he, Function.comp])
    rw [hmap]
    by_cases hj : j = k
    · subst hj; simp [h]
    · simp [hj]
  case isFalse h =>
    by_cases hj : j = k
    · subst hj; simp [List.any_append]
    · have hj' : ¬ k = j := fun hkj => hj hkj.symm
      simp [List.any_append, hj, hj']

/-- `Map.set` adds at most one entry. -/
theorem mapSet_length {α : Type} (m : List (ℤ × α)) (k : ℤ) (v : α) :
    (mapSet m k v).length =
      if m.any (fun e => e.1 = k) then m.length else m.length + 1 := by
  unfold mapSet
  split <;> simp_all

/-- Everything `prefetch` schedules was uncached and not in flight. -/
theorem mem_prefetchPlan {α : Type} {c : FrameCache α} {cur total idx : ℤ}
    {radius : ℕ} (h : idx ∈ prefetchPlan c cur total radius) :
    c.has idx = false ∧ idx ∉ c.pending := by
  unfold prefetchPlan at h
  rw [List.mem_flatMap] at h
  obtain ⟨i, _, hmem⟩ := h
  rw [List.mem_append] at hmem
  rcases hmem with hmem | hmem <;>
  · split_ifs at hmem with hc
    · rw [List.mem_singleton] at hmem
      subst hmem
      exact ⟨by simpa using hc.2.1, hc.2.2⟩
    · exact absurd hmem (List.not_mem_nil _)

end FrameCache

namespace PlayerState

theorem pauseVideo_proj (s : PlayerState) :
    (pauseVideo s).metadata = s.metadata ∧
    (pauseVideo s).currentFrame = s.currentFrame ∧
    (pauseVideo s).isStepping = s.isStepping ∧
    (pauseVideo s).isPlaying = false := by
  simp [pauseVideo]

/-- `stepFrame` rewritten with the pre-pause state's fields (pausing does
not change `metadata`, `currentFrame` or `isStepping`). -/
theorem stepFrame_eq (s : PlayerState) (m : CtrlMeta) (delta : ℤ)
    (hm : s.metadata = some m) (hstep : s.isStepping = false) :
    s.stepFrame delta =
      (let s1 := if s.isPlaying then pauseVideo s else s
       let t := max 0 (min (s.currentFrame + delta) (m.totalFrames - 1))
       if t = s.currentFrame then s1
       else enterFrameMode
         { seekVideoToTime s1 (t * (1 / m.frameRate)) with currentFrame := t }) := by
  unfold stepFrame
  rw [hm]
  cases hp : s.isPlaying <;>
    simp [hstep, hp, pauseVideo]

theorem seekVideoToTime_proj (s : PlayerState) (t : ℚ) :
    (seekVideoToTime s t).metadata = s.metadata ∧
    (seekVideoToTime s t).currentFrame = s.currentFrame ∧
    (seekVideoToTime s t).isStepping = s.isStepping := by
  unfold seekVideoToTime
  split <;> simp

theorem getState_currentFrame (s : PlayerState) :
    (getState s).currentFrame = s.currentFrame := rfl

theorem getState_currentTime (s : PlayerState) (m : CtrlMeta)
    (hm : s.metadata = some m) (hfr : m.frameRate ≠ 0) :
    (getState s).currentTime = s.currentFrame / m.frameRate := by
  simp [getState, hm, hfr]

end PlayerState

/-! ## Claims -/

open PlayerState

/-- C1.  For every loaded video (positive frame rate, at least one frame)
and every `stepFrame` call that is not rejected by the re-entrancy guard,
with `i` the clamped target frame `max 0 (min (currentFrame + delta)
(totalFrames - 1))`: `i` is a valid frame index in `[0, totalFrames)` and
after the call completes `getState` reports `currentFrame = i` and
`currentTime = i / frameRate` (exactly, in the rational model). -/
theorem c1_stepFrame_lands_on_clamped_target
    (s : PlayerState) (m : CtrlMeta) (delta i : ℤ)
    (hm : s.metadata = some m) (hstep : s.isStepping = false)
    (hfr : 0 < m.frameRate) (hT : 1 ≤ m.totalFrames)
    (hi : i = max 0 (min (s.currentFrame + delta) (m.totalFrames - 1))) :
    0 ≤ i ∧ i < m.totalFrames ∧
    (s.stepFrame delta).getState.currentFrame = i ∧
    (s.stepFrame delta).getState.currentTime = i / m.frameRate := by
  have hfr' : m.frameRate ≠ 0 := ne_of_gt hfr
  subst hi
  refine ⟨by omega, by omega, ?_⟩
  rw [stepFrame_eq s m delta hm hstep]
  set t := max 0 (min (s.currentFrame + delta) (m.totalFrames - 1)) with htdef
  set s1 := if s.isPlaying then pauseVideo s else s with hs1
  have h1m : s1.metadata = some m := by
    rw [hs1]; split <;> simp [pauseVideo, hm]
  have h1c : s1.currentFrame = s.currentFrame := by
    rw [hs1]; split <;> simp [pauseVideo]
  by_cases ht : t = s.currentFrame
  · rw [if_pos ht, getState_currentFrame, getState_currentTime s1 m h1m hfr',
      h1c, ht]
    exact ⟨rfl, rfl⟩
  · rw [if_neg ht]
    set s2 := enterFrameMode
      { seekVideoToTime s1 (t * (1 / m.frameRate)) with currentFrame := t }
      with hs2
    have h2m : s2.metadata = some m := by
      rw [hs2]
      show (seekVideoToTime s1 (t * (1 / m.frameRate))).metadata = some m
      rw [(seekVideoToTime_proj s1 _).1, h1m]
    have h2c : s2.currentFrame = t := rfl
    rw [getState_currentFrame, getState_currentTime s2 m h2m hfr', h2c]
    exact ⟨rfl, rfl⟩

/-- C1 witness: stepping forward by one from frame 5 of the paused
100-frame video lands on frame 6 at time 6/10 s. -/
theorem c1_witness :
    (0 : ℤ) ≤ 6 ∧ (6 : ℤ) < m100.totalFrames ∧
    ((sPaused.stepFrame (-1)).getState.currentFrame = 6 ∧
     (sPaused.stepFrame (-1)).getState.currentTime = 6 / m100.frameRate) := by
  have h := c1_stepFrame_lands_on_clamped_target sPaused m100 (-1) 6
    rfl rfl (by norm_num [m100]) (by norm_num [m100]) (by norm_num [sPaused, m100])
  exact ⟨h.1, h.2.1, h.2.2⟩

/-- C9 counterexample.  `stepFrame(-1)` at frame 0 of a playing video is
not a no-op: the call pauses playback (`videoElement.pause()` runs before
the boundary check), so `isPlaying` flips to false. -/
theorem c9_counterexample :
    sPlay0.currentFrame = 0 ∧ sPlay0.isPlaying = true ∧
    (sPlay0.stepFrame (-1)).isPlaying = false ∧
    sPlay0.stepFrame (-1) ≠ sPlay0 := by
  refine ⟨rfl, rfl, rfl, ?_⟩
  intro h
  exact Bool.noConfusion
    (show (false : Bool) = true from congrArg PlayerState.isPlaying h)

/-- C9 amended.  On a loaded video with no step in flight, `stepFrame(-1)`
at index 0 and `stepFrame(+1)` at index `totalFrames - 1` leave the state
unchanged when the player is not playing; when it is playing, the only
change is the pause (`pauseVideo`).  (`stepFrame` performs no extraction
call in any case: it uses native seeking only.) -/
theorem c9_boundary_step_noop (s : PlayerState) (m : CtrlMeta)
    (hm : s.metadata = some m) (hstep : s.isStepping = false) :
    (s.currentFrame = 0 →
      s.stepFrame (-1) = if s.isPlaying then pauseVideo s else s) ∧
    (s.currentFrame = m.totalFrames - 1 → 1 ≤ m.totalFrames →
      s.stepFrame 1 = if s.isPlaying then pauseVideo s else s) ∧
    (s.isPlaying = false → s.currentFrame = 0 → s.stepFrame (-1) = s) ∧
    (s.isPlaying = false → s.currentFrame = m.totalFrames - 1 →
      1 ≤ m.totalFrames → s.stepFrame 1 = s) := by
  have key : ∀ d : ℤ,
      max 0 (min (s.currentFrame + d) (m.totalFrames - 1)) = s.currentFrame →
      s.stepFrame d = if s.isPlaying then pauseVideo s else s := by
    intro d hd
    rw [stepFrame_eq s m d hm hstep, if_pos hd]
  refine ⟨fun h0 => key (-1) (by omega),
    fun hend hT => key 1 (by omega), fun hp h0 => ?_, fun hp hend hT => ?_⟩
  · rw [key (-1) (by omega), if_neg (by simp [hp])]
  · rw [key 1 (by omega), if_neg (by simp [hp])]

/-- C9 witness: at frame 0 while playing, `stepFrame(-1)` only pauses;
at the last frame while paused, `stepFrame(+1)` changes nothing. -/
theorem c9_witness :
    sPlay0.stepFrame (-1) = pauseVideo sPlay0 ∧
    sPausedEnd.stepFrame 1 = sPausedEnd := by
  constructor
  · have h := (c9_boundary_step_noop sPlay0 m100 rfl rfl).1 rfl
    simpa using h
  · exact (c9_boundary_step_noop sPausedEnd m100 rfl rfl).2.2.2 rfl
      (by norm_num [sPausedEnd, m100]) (by norm_num [m100])

/-- C10.  When no media is loaded (`metadata` is null), `stepFrame`,
`togglePlayPause`, `play`, `pause` and `seekToProgress` all return at
their guard and leave the player state unchanged. -/
theorem c10_unloaded_commands_noop (s : PlayerState) (h : s.metadata = none)
    (d : ℤ) (f : ℚ) :
    s.stepFrame d = s ∧ s.togglePlayPause = s ∧ s.play = s ∧
    s.pause = s ∧ s.seekToProgress f = s := by
  refine ⟨?_, ?_, ?_, ?_, ?_⟩ <;>
    simp [stepFrame, togglePlayPause, play, pause, seekToProgress, h]

/-- C10 witness at the empty controller state. -/
theorem c10_witness :
    sEmpty.stepFrame (-1) = sEmpty ∧ sEmpty.togglePlayPause = sEmpty ∧
    sEmpty.play = sEmpty ∧ sEmpty.pause = sEmpty ∧
    sEmpty.seekToProgress (1/2) = sEmpty :=
  c10_unloaded_commands_noop sEmpty rfl (-1) (1/2)

/-- C2 counterexample.  On the paused 100-frame video, the computed
target frame of `seekToProgress(0)` is `round(0 * duration * frameRate)
 = 0`, but the call lands on frame 1: the backward-then-forward trick
(`currentFrame := max(0, target - 1)` then `stepFrame(1)`) overshoots by
one when the target is frame 0. -/
theorem c2_counterexample :
    sPaused.isPlaying = false ∧ sPaused.videoPaused = true ∧
    jsRound (0 * m100.duration * m100.frameRate) = 0 ∧
    (sPaused.seekToProgress 0).currentFrame = 1 := by
  refine ⟨rfl, rfl, ?_, ?_⟩
  · norm_num [jsRound, m100]
  · norm_num [seekToProgress, sPaused, m100, jsRound, stepFrame, pauseVideo,
      seekVideoToTime, enterFrameMode]

/-- C2 amended.  On a loaded video (at least one frame, nonnegative
duration and rate) with no step in flight, `seekToProgress(f)` for
`f ≥ 0` while in frame mode or with the element paused lands on
`min (max target 1) (totalFrames - 1)` where
`target = round(f * duration * frameRate)`: exactly the computed target
whenever `1 ≤ target ≤ totalFrames - 1`, but frame 1 when the target is 0
(on a video of ≥ 2 frames) and frame `totalFrames - 1` when the target
is past the end. -/
theorem c2_seekToProgress_lands
    (s : PlayerState) (m : CtrlMeta) (f : ℚ)
    (hm : s.metadata = some m) (hstep : s.isStepping = false)
    (hmode : s.isFrameMode = true ∨ s.videoPaused = true)
    (hf : 0 ≤ f) (hd : 0 ≤ m.duration) (hr : 0 ≤ m.frameRate)
    (hT : 1 ≤ m.totalFrames) :
    (s.seekToProgress f).currentFrame =
      min (max (jsRound (f * m.duration * m.frameRate)) 1)
        (m.totalFrames - 1) := by
  have hcond : (s.isFrameMode || s.videoPaused) = true := by
    rcases hmode with h | h <;> simp [h]
  have htarget : 0 ≤ jsRound (f * m.duration * m.frameRate) := by
    have hx : (0 : ℚ) ≤ f * m.duration * m.frameRate := by positivity
    have : (0 : ℚ) ≤ f * m.duration * m.frameRate + 1/2 := by linarith
    exact Int.floor_nonneg.mpr this
  set target := jsRound (f * m.duration * m.frameRate) with htdef
  unfold seekToProgress
  rw [hm]
  simp only [hcond, if_true]
  set s' : PlayerState :=
      { s with metadata := some m, currentFrame := max 0 (target - 1) }
    with hs'
  have hm' : s'.metadata = some m := rfl
  have hstep' : s'.isStepping = false := by rw [hs']; exact hstep
  have hc' : s'.currentFrame = max 0 (target - 1) := rfl
  rw [stepFrame_eq s' m 1 hm' hstep']
  by_cases ht : max 0 (min (s'.currentFrame + 1) (m.totalFrames - 1)) =
      s'.currentFrame
  · rw [if_pos ht]
    have hcur : (if s'.isPlaying then pauseVideo s' else s').currentFrame =
        s'.currentFrame := by
      split <;> simp [pauseVideo]
    rw [hcur, hc']
    rw [hc'] at ht
    omega
  · rw [if_neg ht]
    show max 0 (min (s'.currentFrame + 1) (m.totalFrames - 1)) = _
    rw [hc'] at ht ⊢
    omega

/-- C2 witness: `seekToProgress(0.5)` on the paused 100-frame video
(duration 10 s, 10 fps) lands exactly on frame 50. -/
theorem c2_witness : (sPaused.seekToProgress (1/2)).currentFrame = 50 := by
  have h := c2_seekToProgress_lands sPaused m100 (1/2) rfl rfl (Or.inr rfl)
    (by norm_num) (by norm_num [m100]) (by norm_num [m100]) (by norm_num [m100])
  rw [h]
  norm_num [jsRound, m100]

/-- C3 counterexample.  A `put` of an EXISTING key on a full cache still
evicts: `cacheFull2` (capacity 2) holds keys 1 and 2; `set 2 30`
re-writes existing key 2, yet key 1 is evicted — the claim allows
eviction only when the index is a new key. -/
theorem c3_counterexample :
    cacheFull2.size = cacheFull2.maxSize ∧ cacheFull2.has 1 = true ∧
    cacheFull2.has 2 = true ∧ (cacheFull2.set 2 30).has 1 = false := by
  decide

/-- C3 amended.  `put` evicts exactly when the cache is at capacity,
whether or not the index is a new key; the victim is the entry at the
front of the recency order (the least-recently inserted-or-hit key); and
for positive capacity any sequence of `put` calls keeps
`size ≤ maxSize`.  Stated for a cache whose keys are distinct (the `Map`
invariant):
(1) below capacity nothing is evicted and the key set only gains `k`;
(2) at capacity the oldest key `k0` is removed and the key set otherwise
only gains `k`;
(3) the size bound is preserved by any list of further puts. -/
theorem c3_put_eviction {α : Type} (c : FrameCache α) (k : ℤ) (v : α) :
    (c.size < c.maxSize →
      ∀ j, (c.set k v).has j = (c.has j || decide (j = k))) ∧
    (∀ k0 v0 rest, c.maxSize ≤ c.size → c.cache = (k0, v0) :: rest →
      (c.cache.map Prod.fst).Nodup →
      ∀ j, (c.set k v).has j =
        ((c.has j && !(decide (j = k0))) || decide (j = k))) ∧
    (1 ≤ c.maxSize → c.size ≤ c.maxSize →
      ∀ puts : List (ℤ × α),
        (puts.foldl (fun a p => a.set p.1 p.2) c).size ≤ c.maxSize) := by
  refine ⟨?_, ?_, ?_⟩
  · intro hlt j
    unfold FrameCache.set
    rw [if_neg (by simp only [FrameCache.size] at hlt; omega)]
    exact FrameCache.mapSet_keys c.cache k v j
  · intro k0 v0 rest hcap hch hnd j
    unfold FrameCache.set
    rw [if_pos (by simpa [FrameCache.size] using hcap), hch]
    show (mapSet rest k v).any (fun e => e.1 = j) = _
    rw [FrameCache.mapSet_keys rest k v j]
    have hhead : c.has j = (decide (j = k0) || rest.any (fun e => e.1 = j)) := by
      unfold FrameCache.has
      rw [hch]
      by_cases hj : j = k0 <;> simp [List.any_cons, hj, eq_comm]
    rw [hhead]
    by_cases hj : j = k0
    · subst hj
      have hnotin : rest.any (fun e => e.1 = j) = false := by
        rw [hch] at hnd
        simp only [List.map_cons, List.nodup_cons] at hnd
        rw [List.any_eq_false]
        intro e he hje
        exact hnd.1 (by
          simp only [decide_eq_true_eq] at hje
          exact hje ▸ List.mem_map_of_mem Prod.fst he)
      simp [hnotin]
    · simp [hj]
  · intro h1 hle puts
    induction puts generalizing c with
    | nil => exact hle
    | cons p t ih =>
      have hstep : (c.set p.1 p.2).size ≤ (c.set p.1 p.2).maxSize := by
        show (c.set p.1 p.2).size ≤ c.maxSize
        unfold FrameCache.set FrameCache.size at *
        split
        case isTrue hcap =>
          rw [FrameCache.mapSet_length]
          have htail : c.cache.tail.length = c.cache.length - 1 := by
            simp [List.length_tail]
          split <;> omega
        case isFalse hcap =>
          rw [FrameCache.mapSet_length]
          split <;> omega
      simpa using ih (c.set p.1 p.2) h1 hstep

/-- C3 witness: on the full two-entry cache, a put of the new key 3
evicts exactly the oldest key 1 and keeps 2 and 3, and further puts keep
the size within capacity. -/
theorem c3_witness :
    ((cacheFull2.set 3 30).has 1 = false ∧
     (cacheFull2.set 3 30).has 2 = true ∧
     (cacheFull2.set 3 30).has 3 = true) ∧
    ([( (4 : ℤ), 40), (5, 50), (6, 60)].foldl
      (fun a p => a.set p.1 p.2) cacheFull2).size ≤ cacheFull2.maxSize := by
  have h := c3_put_eviction cacheFull2 3 30
  have h2 := h.2.1 1 10 [(2, 20)] (by decide) (by decide) (by decide)
  refine ⟨⟨?_, ?_, ?_⟩, ?_⟩
  · rw [h2 1]; decide
  · rw [h2 2]; decide
  · rw [h2 3]; decide
  · exact h.2.2 (by decide) (by decide) _

/-- C4.  For a current index in range (`0 ≤ cur ≤ total`), the extraction
calls issued by `prefetch(cur, total, extractFn, radius)` are exactly, and
in the same order as, the spec's schedule: for each `i` in `1..=radius`,
`cur+i` before `cur-i`, included exactly when in `[0, total)`, uncached
and not in flight.  Moreover every scheduled index was not pending and
becomes pending, so a second `prefetch` issued while the first's
extractions are still in flight never requests any of them again (at most
one extraction invocation per uncached index). -/
theorem c4_prefetch_exactly_spec {α : Type} (c : FrameCache α)
    (cur total : ℤ) (radius : ℕ) (h0 : 0 ≤ cur) (h1 : cur ≤ total) :
    FrameCache.prefetchPlan c cur total radius =
      FrameCache.specPrefetchPlan c cur total radius ∧
    (∀ idx, idx ∈ FrameCache.prefetchPlan c cur total radius →
      idx ∉ c.pending ∧
      idx ∈ (FrameCache.prefetchStep c cur total radius).pending) ∧
    (∀ cur2 total2 : ℤ, ∀ radius2 : ℕ, ∀ idx,
      idx ∈ FrameCache.prefetchPlan
        (FrameCache.prefetchStep c cur total radius) cur2 total2 radius2 →
      idx ∉ FrameCache.prefetchPlan c cur total radius) := by
  refine ⟨?_, ?_, ?_⟩
  · unfold FrameCache.prefetchPlan FrameCache.specPrefetchPlan
    have hcong : ∀ l : List ℕ, (∀ i ∈ l, 1 ≤ i) →
        (l.flatMap fun i =>
          (if cur + i < total ∧ ¬ c.has (cur + i) ∧ (cur + i) ∉ c.pending
            then [cur + (i : ℤ)] else []) ++
          (if 0 ≤ cur - i ∧ ¬ c.has (cur - i) ∧ (cur - i) ∉ c.pending
            then [cur - (i : ℤ)] else [])) =
        (l.flatMap fun i =>
          (if 0 ≤ cur + i ∧ cur + i < total ∧ ¬ c.has (cur + i) ∧
              (cur + i) ∉ c.pending then [cur + (i : ℤ)] else []) ++
          (if 0 ≤ cur - i ∧ cur - i < total ∧ ¬ c.has (cur - i) ∧
              (cur - i) ∉ c.pending then [cur - (i : ℤ)] else [])) := by
      intro l hl
      induction l with
      | nil => rfl
      | cons a t ih =>
        have ha : (1 : ℤ) ≤ (a : ℤ) := by exact_mod_cast hl a (by simp)
        rw [List.flatMap_cons, List.flatMap_cons,
          ih (fun i hi => hl i (by simp [hi]))]
        have hfwd :
            (cur + a < total ∧ ¬ c.has (cur + a) ∧ (cur + a) ∉ c.pending) ↔
            (0 ≤ cur + a ∧ cur + a < total ∧ ¬ c.has (cur + a) ∧
              (cur + a) ∉ c.pending) :=
          ⟨fun h => ⟨by omega, h⟩, fun h => h.2⟩
        have hbwd :
            (0 ≤ cur - a ∧ ¬ c.has (cur - a) ∧ (cur - a) ∉ c.pending) ↔
            (0 ≤ cur - a ∧ cur - a < total ∧ ¬ c.has (cur - a) ∧
              (cur - a) ∉ c.pending) :=
          ⟨fun h => ⟨h.1, by omega, h.2⟩, fun h => ⟨h.1, h.2.2⟩⟩
        rw [if_congr hfwd rfl rfl, if_congr hbwd rfl rfl]
    exact hcong (List.range' 1 radius)
      (fun i hi => (List.mem_range'_1.mp hi).1)
  · intro idx hmem
    refine ⟨(FrameCache.mem_prefetchPlan hmem).2, ?_⟩
    unfold FrameCache.prefetchStep
    simp only [List.mem_append]
    exact Or.inr hmem
  · intro cur2 total2 radius2 idx hmem hmem1
    have h2 := (FrameCache.mem_prefetchPlan hmem).2
    unfold FrameCache.prefetchStep at h2
    simp only [List.mem_append, not_or] at h2
    exact h2.2 hmem1

/-- C4 witness: on an empty cache, `prefetch(4, 100, extractFn, 3)`
requests exactly `[5, 3, 6, 2, 7, 1]` (forward before backward for each
distance), and a second `prefetch(4, 100, extractFn, 3)` issued while
those are in flight does not request frame 5 again. -/
theorem c4_witness :
    FrameCache.prefetchPlan (FrameCache.empty ℕ 30) 4 100 3 =
      [5, 3, 6, 2, 7, 1] ∧
    FrameCache.specPrefetchPlan (FrameCache.empty ℕ 30) 4 100 3 =
      [5, 3, 6, 2, 7, 1] ∧
    (5 : ℤ) ∉ FrameCache.prefetchPlan cachePending 4 100 3 := by
  have h := c4_prefetch_exactly_spec (FrameCache.empty ℕ 30) 4 100 3
    (by norm_num) (by norm_num)
  refine ⟨by decide, ?_, ?_⟩
  · rw [← h.1]; decide
  · intro hmem
    exact h.2.2 4 100 3 5 hmem (by decide)

/-- C5 counterexample.  Frame 5 is in flight on `cachePending`; after
`clear()` the cache has no entry for 5, yet when the in-flight extraction
completes, its `.then` handler stores the frame unconditionally — the
cleared cache DOES gain an entry for index 5 without any new request. -/
theorem c5_counterexample :
    (5 : ℤ) ∈ cachePending.pending ∧
    (cachePending.clear).has 5 = false ∧
    ((cachePending.clear).onPrefetchSuccess 5 42).has 5 = true := by
  decide

/-- C5 amended.  Clearing the cache discards the pending bookkeeping but
NOT the effect of in-flight completions: when an extraction that was in
flight at the moment of `clear()` later completes, its handler stores the
frame, so the cleared cache ends up holding exactly that entry. -/
theorem c5_clear_then_completion_stores {α : Type} (c : FrameCache α)
    (k : ℤ) (v : α) :
    ((c.clear).onPrefetchSuccess k v).cache = [(k, v)] ∧
    ((c.clear).onPrefetchSuccess k v).has k = true := by
  have hcache : ((c.clear).onPrefetchSuccess k v).cache = [(k, v)] := by
    unfold FrameCache.clear FrameCache.onPrefetchSuccess FrameCache.set mapSet
    simp
  refine ⟨hcache, ?_⟩
  unfold FrameCache.has
  rw [hcache]
  simp

/-- C6.  `extractFrame` resolves with an `ExtractedFrame` exactly when
the process closes before the 10-second timer with exit code 0 and
non-empty output (and the frame then carries
`timestamp = frameNumber / frameRate` and the concatenated bytes); a
close with any other code, empty output, or a spawn error before the
timer rejects with the extraction-failed error; and when no event fires
before 10 seconds the process is killed and the call rejects with the
timeout error. -/
theorem c6_extract_settlement (fn : ℤ) (fr : ℚ) (ev : Option (ℚ × ProcEv)) :
    (∀ t code chunks, ev = some (t, ProcEv.close code chunks) → t < 10 →
      code = 0 → chunks ≠ [] →
      extractFrame fn fr ev =
        ExtractOutcome.resolved ⟨fn, fn / fr, chunks.flatten⟩) ∧
    (∀ t code chunks, ev = some (t, ProcEv.close code chunks) → t < 10 →
      ¬(code = 0 ∧ chunks ≠ []) →
      extractFrame fn fr ev = ExtractOutcome.failed) ∧
    (∀ t, ev = some (t, ProcEv.procError) → t < 10 →
      extractFrame fn fr ev = ExtractOutcome.failed) ∧
    (∀ t e, ev = some (t, e) → 10 ≤ t →
      extractFrame fn fr ev = ExtractOutcome.timedOut) ∧
    (ev = none → extractFrame fn fr ev = ExtractOutcome.timedOut) ∧
    (∀ f, extractFrame fn fr ev = ExtractOutcome.resolved f →
      ∃ t code chunks, ev = some (t, ProcEv.close code chunks) ∧ t < 10 ∧
        code = 0 ∧ chunks ≠ [] ∧ f = ⟨fn, fn / fr, chunks.flatten⟩) := by
  refine ⟨?_, ?_, ?_, ?_, ?_, ?_⟩
  · intro t code chunks hev ht hc hch
    subst hev
    simp [extractFrame, ht, hc, hch]
  · intro t code chunks hev ht hcc
    subst hev
    simp [extractFrame, ht, hcc]
  · intro t hev ht
    subst hev
    simp [extractFrame, ht]
  · intro t e hev ht
    subst hev
    simp [extractFrame, not_lt.mpr ht]
  · intro hev
    subst hev
    rfl
  · intro f hf
    match hev : ev with
    | none => exact absurd hf (by simp [extractFrame])
    | some (t, ProcEv.procError) =>
      simp only [extractFrame] at hf
      split_ifs at hf
    | some (t, ProcEv.close code chunks) =>
      simp only [extractFrame] at hf
      split_ifs at hf with ht hcc
      exact ⟨t, code, chunks, rfl, ht, hcc.1, hcc.2,
        (ExtractOutcome.resolved.inj hf).symm⟩

/-- C6 witness: a clean close at 2 s with bytes resolves with the frame
(timestamp `150/30 = 5`); a spawn error arriving only at 20 s has been
preempted by the timeout. -/
theorem c6_witness :
    extractFrame 150 30 (some (2, ProcEv.close 0 [[7], [8]])) =
      ExtractOutcome.resolved ⟨150, 5, [7, 8]⟩ ∧
    extractFrame 150 30 (some (20, ProcEv.procError)) =
      ExtractOutcome.timedOut := by
  constructor
  · have h := (c6_extract_settlement 150 30
      (some (2, ProcEv.close 0 [[7], [8]]))).1 2 0 [[7], [8]]
      rfl (by norm_num) rfl (by simp)
    rw [h]
    norm_num
  · exact (c6_extract_settlement 150 30 (some (20, ProcEv.procError))).2.2.2.1
      20 _ rfl (by norm_num)

/-- C7 counterexample.  For `r_frame_rate = "1/3"` with a 3-second
stream, the descriptor reports `totalFrames = floor((1/3)*3) = 1` but its
own `frameRate` field is the rounded `0.333`, and
`floor(0.333 * 3) = 0 ≠ 1`: `totalFrames` is computed from the UNROUNDED
resolved rate, not from the descriptor's rounded `frameRate` field. -/
theorem c7_counterexample :
    (getMetadata streamThird formatBare).totalFrames = some 1 ∧
    (getMetadata streamThird formatBare).duration = 3 ∧
    (getMetadata streamThird formatBare).frameRate = some (333/1000) ∧
    Option.map (fun q => ⌊q * (getMetadata streamThird formatBare).duration⌋)
      (getMetadata streamThird formatBare).frameRate = some 0 ∧
    some (1 : ℤ) ≠ some 0 := by
  refine ⟨?_, ?_, ?_, ?_, by simp⟩ <;>
    norm_num [getMetadata, streamThird, formatBare, resolveRate, rateOf,
      resolveDuration, jsOr, truthy, round3, jsRound]

/-- C7 amended.  The descriptor satisfies
`totalFrames = floor(r * duration)` where `r` is the resolved
(pre-rounding) rate; the claim's equation
`totalFrames = floor(frameRate * duration)` with the descriptor's own
(3-decimal-rounded) `frameRate` field holds exactly in the case where
rounding does not change the resolved rate. -/
theorem c7_totalFrames_from_unrounded_rate (s : ProbeStream)
    (fm : ProbeFormat) (r : ℚ) (hr : resolveRate s = some r) :
    (getMetadata s fm).totalFrames = some ⌊r * (getMetadata s fm).duration⌋ ∧
    (round3 r = r →
      (getMetadata s fm).totalFrames =
        Option.map (fun q => ⌊q * (getMetadata s fm).duration⌋)
          (getMetadata s fm).frameRate) := by
  constructor
  · simp [getMetadata, hr]
  · intro hround
    simp [getMetadata, hr, hround]

/-- C7 witness: for `r_frame_rate = "30/1"` and a 10-second stream the
resolved rate 30 is already 3-decimal, and both sides agree at 300. -/
theorem c7_witness :
    (getMetadata streamThirty formatBare).totalFrames = some 300 ∧
    Option.map (fun q => ⌊q * (getMetadata streamThirty formatBare).duration⌋)
      (getMetadata streamThirty formatBare).frameRate = some 300 := by
  have h30 : resolveRate streamThirty = some 30 := by
    norm_num [resolveRate, streamThirty, rateOf]
  have h := c7_totalFrames_from_unrounded_rate streamThirty formatBare 30 h30
  have hduration : (getMetadata streamThirty formatBare).duration = 10 := by
    norm_num [getMetadata, resolveDuration, streamThirty, formatBare, jsOr,
      truthy]
  have ht : (getMetadata streamThirty formatBare).totalFrames = some 300 := by
    rw [h.1, hduration]
    norm_num
  refine ⟨ht, ?_⟩
  rw [← h.2 (by norm_num [round3, jsRound]), ht]

/-- C8 counterexample.  A stream whose `r_frame_rate` is the parsable
string `"0/1"` resolves to rate 0, so the descriptor's `frameRate` is 0,
not positive, and no fallback to 30 happens (the fallback only applies
when the field is absent, not merely when it yields a degenerate value). -/
theorem c8_counterexample :
    streamZeroRate.r_frame_rate ≠ none ∧
    (getMetadata streamZeroRate formatBare).frameRate = some 0 ∧
    ¬ ∃ r : ℚ, (getMetadata streamZeroRate formatBare).frameRate = some r ∧
      0 < r := by
  have h0 : (getMetadata streamZeroRate formatBare).frameRate = some 0 := by
    norm_num [getMetadata, resolveRate, streamZeroRate, rateOf, round3,
      jsRound]
  refine ⟨by simp [streamZeroRate], h0, ?_⟩
  rintro ⟨r, hr, hpos⟩
  rw [h0] at hr
  have : r = 0 := (Option.some.inj hr).symm
  exact absurd (this ▸ hpos) (lt_irrefl 0)

/-- C8 amended.  For well-formed probe fields (present rate fields parse
to nonnegative numerator/denominator, present durations are nonnegative)
the descriptor satisfies `frameRate ≥ 0` (not the claimed `> 0`) and
`totalFrames ≥ 0`, and the 30-fallback applies exactly when both rate
fields are absent. -/
theorem c8_descriptor_invariants (s : ProbeStream) (f : ProbeFormat)
    (h1 : RateFieldOk s.r_frame_rate) (h2 : RateFieldOk s.avg_frame_rate)
    (h3 : DurFieldOk s.duration) (h4 : DurFieldOk f.duration) :
    (∃ q, (getMetadata s f).frameRate = some q ∧ 0 ≤ q) ∧
    (∃ n, (getMetadata s f).totalFrames = some n ∧ 0 ≤ n) ∧
    (s.r_frame_rate = none → s.avg_frame_rate = none →
      (getMetadata s f).frameRate = some 30) := by
  have hrateOf : ∀ r : RateStr, (∃ q, r.num = some q ∧ 0 ≤ q) →
      (∀ d, r.den = some (some d) → 0 ≤ d) →
      ∃ q, rateOf r = some q ∧ 0 ≤ q := by
    intro r ⟨q, hq, hq0⟩ hden
    unfold rateOf
    match hd : r.den with
    | none => exact ⟨q, hq ▸ rfl, hq0⟩
    | some none => exact ⟨q, hq ▸ rfl, hq0⟩
    | some (some d) =>
      by_cases hdz : d ≠ 0
      · refine ⟨q / d, ?_, ?_⟩
        · simp [hdz, hq]
        · have hd0 : 0 ≤ d := hden d hd
          exact div_nonneg hq0 hd0
      · exact ⟨q, by simp [hdz, hq], hq0⟩
  have hrate : ∃ q, resolveRate s = some q ∧ 0 ≤ q := by
    unfold resolveRate
    match hsr : s.r_frame_rate with
    | some r =>
      obtain ⟨hnum, hden⟩ := h1 r hsr
      exact hrateOf r hnum hden
    | none =>
      match hsa : s.avg_frame_rate with
      | some r =>
        obtain ⟨hnum, hden⟩ := h2 r hsa
        exact hrateOf r hnum hden
      | none => exact ⟨30, rfl, by norm_num⟩
  have hdur : 0 ≤ resolveDuration s.duration f.duration := by
    unfold resolveDuration jsOr
    split
    case isTrue ht =>
      match hsd : s.duration with
      | none => rw [hsd] at ht; exact absurd ht (by simp [truthy])
      | some q => simpa [hsd] using h3 q hsd
    case isFalse =>
      split
      case isTrue ht =>
        match hfd : f.duration with
        | none => rw [hfd] at ht; exact absurd ht (by simp [truthy])
        | some q => simpa [hfd] using h4 q hfd
      case isFalse => simp
  obtain ⟨q, hq, hq0⟩ := hrate
  have hround0 : 0 ≤ round3 q := by
    unfold round3 jsRound
    have hfl : (0 : ℤ) ≤ ⌊q * 1000 + 1/2⌋ :=
      Int.floor_nonneg.mpr (by positivity)
    exact div_nonneg (by exact_mod_cast hfl) (by norm_num)
  refine ⟨⟨round3 q, by simp [getMetadata, hq], hround0⟩, ?_, ?_⟩
  · refine ⟨⌊q * resolveDuration s.duration f.duration⌋,
      by simp [getMetadata, hq], ?_⟩
    exact Int.floor_nonneg.mpr (mul_nonneg hq0 hdur)
  · intro hr hn
    simp [getMetadata, resolveRate, hr, hn, round3, jsRound]
    norm_num

/-- C8 witness: with both rate fields and all durations absent the
descriptor falls back to rate 30, and `totalFrames = floor(30 * 0) = 0`
is nonnegative. -/
theorem c8_witness :
    (getMetadata streamBare formatBare).frameRate = some 30 ∧
    (getMetadata streamBare formatBare).totalFrames = some 0 := by
  have h := c8_descriptor_invariants streamBare formatBare
    (by intro r hr; simp [streamBare] at hr)
    (by intro r hr; simp [streamBare] at hr)
    (by intro d hd; simp [streamBare] at hd)
    (by intro d hd; simp [formatBare] at hd)
  refine ⟨h.2.2 rfl rfl, ?_⟩
  norm_num [getMetadata, resolveRate, resolveDuration, streamBare,
    formatBare, jsOr, truthy]

end FrameStep
